import Mathlib

/-!
Verification of the copi-challenge-bot repository (a FastAPI debate bot).

This file shallowly embeds the parts of the source that the checked claims
are about:

* `app/utils/validators.py`  (ResponseValidator)
* `app/utils/fallbacks.py`   (FallbackResponseGenerator)
* `app/services/conversation_service.py` (the generation pipeline and the
  two service entry points)
* `app/models/database.py`   (DatabaseManager, projected to pure state)
* `app/middleware/rate_limiter.py` (RateLimiter.is_allowed)
* `app/services/retry_service.py`  (call_openai_with_retry under tenacity)
* `app/main.py`              (the /chat endpoint error mapping)

External collaborators (the LangChain chains and the OpenAI client) are
modelled as oracles: per-attempt outcomes that may be any value or any
raised exception.  Python strings are modelled as Lean `String`; Python
`time.time()` values as `ℚ`; Python `int` as `ℤ`/`ℕ`.
-/

namespace DebateBot

/-! ### Python string primitives -/

/-- Python `str.lower()` (ASCII case folding; all configured phrases are
ASCII lowercase). -/
def pyLower (s : String) : String := ⟨s.data.map Char.toLower⟩

/-- One step of Python whitespace splitting on the character list:
accumulate the current word (reversed) and emit words at whitespace runs.
Mirrors `str.split()` with no arguments: splits on whitespace runs and
drops empty fields. -/
def splitWsAux : List Char → List Char → List (List Char)
  | [], acc => if acc.isEmpty then [] else [acc.reverse]
  | c :: rest, acc =>
    if c.isWhitespace then
      if acc.isEmpty then splitWsAux rest []
      else acc.reverse :: splitWsAux rest []
    else splitWsAux rest (c :: acc)

/-- Python `str.split()` (no separator). -/
def pySplit (s : String) : List String :=
  (splitWsAux s.data []).map fun l => ⟨l⟩

/-- Python `len(s.split())`. -/
def wordCount (s : String) : Nat := (pySplit s).length

/-- Python `str.strip()` with no arguments: drop leading and trailing
whitespace. -/
def pyStrip (s : String) : String :=
  ⟨((s.data.dropWhile Char.isWhitespace).reverse.dropWhile
      Char.isWhitespace).reverse⟩

/-- `pat in s` on character lists (Python substring containment). -/
def containsSubAux (pat : List Char) : List Char → Bool
  | [] => pat.isEmpty
  | c :: rest => pat.isPrefixOf (c :: rest) || containsSubAux pat rest

/-- Python `pat in s` for strings. -/
def containsSub (s pat : String) : Bool := containsSubAux pat.data s.data

/-- Core recursion of Python `str.replace(pat, repl)` on character lists.
For the (unused here) empty pattern Python splices `repl` between every
character; this model instead leaves the string unchanged — every call in
the embedded source uses the fixed non-empty patterns `"this"` / `"esto"`. -/
def replaceAux (pat repl : List Char) (s : List Char) : List Char :=
  match s with
  | [] => []
  | c :: rest =>
    if pat ≠ [] ∧ pat.isPrefixOf (c :: rest) then
      repl ++ replaceAux pat repl (rest.drop (pat.length - 1))
    else
      c :: replaceAux pat repl rest
termination_by s.length
decreasing_by
  · simp only [List.length_cons, List.length_drop]
    omega
  · simp

/-- Python `s.replace(pat, repl)`. -/
def pyReplace (s pat repl : String) : String :=
  ⟨replaceAux pat.data repl.data s.data⟩

/-- Python `random.choice(l)` with the random index supplied as an oracle
argument `i`; on the non-empty lists it is applied to this picks the
element at `i % l.length`. -/
def pyChoice (l : List String) (i : Nat) : String := l.getD (i % l.length) ""

/-! ### `app/utils/validators.py` — ResponseValidator -/

/-- `ResponseValidator.min_length` -/
def minLength : Nat := 10
/-- `ResponseValidator.max_length` -/
def maxLength : Nat := 3000
/-- `ResponseValidator.min_words` -/
def minWords : Nat := 5
/-- `ResponseValidator.max_words` -/
def maxWords : Nat := 200

/-- `ResponseValidator.validate_response_length` -/
def validate_response_length (response : String) : Bool × List String :=
  let issues : List String :=
    (if (pyStrip response).length < minLength then
      ["Response too short (minimum " ++ toString minLength ++ " characters)"]
     else []) ++
    (if (pyStrip response).length > maxLength then
      ["Response too long (maximum " ++ toString maxLength ++ " characters)"]
     else []) ++
    (if wordCount response < minWords then
      ["Response has too few words (minimum " ++ toString minWords ++ ")"]
     else []) ++
    (if wordCount response > maxWords then
      ["Response has too many words (maximum " ++ toString maxWords ++ ")"]
     else [])
  (issues.isEmpty, issues)

/-- `ResponseValidator` inappropriate (capitulation) phrase list. -/
def inappropriatePhrases : List String :=
  ["i\x27m sorry", "i apologize", "you\x27re absolutely right",
   "i agree completely", "that\x27s correct", "you make a good point",
   "i was wrong", "i change my mind"]

/-- `ResponseValidator` generic-phrase list. -/
def genericPhrases : List String :=
  ["i don\x27t know", "maybe", "perhaps", "it depends"]

/-- `ResponseValidator.validate_response_content` (the `position` argument
is unused by the source body). -/
def validate_response_content (response : String) (_position : String) :
    Bool × List String :=
  let rlower := pyLower response
  let issues : List String :=
    ((inappropriatePhrases.filter fun p => containsSub rlower p).map
      fun p => "Response contains inappropriate agreement: \x27" ++ p ++ "\x27") ++
    (if genericPhrases.any (fun p => containsSub rlower p) then
      ["Response is too generic or uncertain"]
     else [])
  (issues.isEmpty, issues)

/-- `ResponseValidator` conversation-ender list. -/
def conversationEnders : List String :=
  ["end of discussion", "nothing more to say", "that\x27s final",
   "case closed", "end of story"]

/-- `ResponseValidator.validate_debate_engagement` -/
def validate_debate_engagement (response : String) : Bool × List String :=
  let rlower := pyLower response
  let issues : List String :=
    if conversationEnders.any (fun p => containsSub rlower p) then
      ["Response contains conversation-ending phrases"]
    else []
  (issues.isEmpty, issues)

/-- Result dict of `ResponseValidator.comprehensive_validation`. -/
structure ValidationReport where
  is_valid : Bool
  issues : List String
  length_valid : Bool
  content_valid : Bool
  engagement_valid : Bool
  word_count : Nat
  char_count : Nat
  deriving Repr, DecidableEq

/-- `ResponseValidator.comprehensive_validation` -/
def comprehensive_validation (response : String) (position : String) :
    ValidationReport :=
  let lv := validate_response_length response
  let cv := validate_response_content response position
  let ev := validate_debate_engagement response
  { is_valid := lv.1 && cv.1 && ev.1
    issues := lv.2 ++ cv.2 ++ ev.2
    length_valid := lv.1
    content_valid := cv.1
    engagement_valid := ev.1
    word_count := wordCount response
    char_count := (pyStrip response).length }

/-! ### `app/utils/fallbacks.py` — FallbackResponseGenerator -/

/-- `FallbackResponseGenerator.fallback_templates` (category → canned
replies). -/
def fallbackTemplates : List (String × List String) :=
  [("Climate Change",
    ["That\x27s exactly what the climate establishment wants you to believe. Have you looked into the natural climate cycles that explain these changes without human involvement?",
     "The data you\x27re referring to has been manipulated by institutions with clear financial interests. What about the scientists who disagree but are being silenced?",
     "Consider this: the Earth has gone through warming and cooling periods for millions of years. Why is this time different? Follow the money behind the climate agenda."]),
   ("Vaccines and Health",
    ["The pharmaceutical industry has a massive financial incentive to promote vaccines. Have you researched the adverse effects that aren\x27t being reported in mainstream studies?",
     "Natural immunity has protected humans for thousands of years. Why are we suddenly told it\x27s not enough? What changed besides corporate profits?",
     "That\x27s the official narrative, but what about the independent researchers who\x27ve found concerning patterns? Their voices are being suppressed for a reason."]),
   ("Flat Earth vs Spherical Earth",
    ["NASA and space agencies have billions in funding to maintain. Have you personally verified the curvature, or are you trusting images that could be manipulated?",
     "Think about it - why can\x27t we see the curve from high altitudes? Why does water always find its level? The evidence is right in front of us.",
     "The space industry is worth hundreds of billions. What if it\x27s all an elaborate deception? Question what you\x27ve been taught to believe."]),
   ("Artificial Intelligence and Jobs",
    ["The tech giants are downplaying the speed of AI advancement to avoid panic. We\x27re already seeing massive job displacement that\x27s being hidden by statistics manipulation.",
     "They want you to believe it will be gradual, but AI is advancing exponentially. Most jobs will be obsolete within a decade, and governments aren\x27t prepared.",
     "The economic disruption will be catastrophic. Those in power know this but are keeping the public in the dark to maintain stability while they prepare."]),
   ("Social Media and Privacy",
    ["These platforms know more about you than you know about yourself. The psychological manipulation is sophisticated and designed to influence behavior at a mass scale.",
     "Privacy is already gone - they\x27re just making you feel like you have control. The data collection is far more extensive than they admit.",
     "Social media addiction isn\x27t accidental - it\x27s engineered. The algorithms are designed to create dependency and manipulate your thoughts and emotions."])]

/-- `FallbackResponseGenerator.generic_fallbacks` -/
def genericFallbacks : List String :=
  ["That\x27s the mainstream narrative, but have you considered alternative perspectives that challenge the official story?",
   "The information you\x27re relying on comes from sources with clear biases. What about the evidence that contradicts this view?",
   "I understand that\x27s the popular opinion, but what if everything we\x27ve been told about this is fundamentally wrong?",
   "Think about who benefits from maintaining this belief. Question the motives behind the information you\x27re accepting.",
   "The truth is often hidden in plain sight. What if the real evidence points in a completely different direction?"]

/-- The Spanish-detection word list used by both fallback methods. -/
def spanishWords : List String :=
  ["carne", "papa", "papas", "con", "el", "la", "de", "en", "y", "o",
   "qué", "cómo", "por", "para", "sin", "muy", "más", "menos", "también",
   "sí", "no", "es", "son", "está", "están"]

/-- `any(word in user_message.lower() for word in spanish_words) if
user_message else False` -/
def isSpanishMsg (user_message : String) : Bool :=
  if user_message = "" then false
  else spanishWords.any fun w => containsSub (pyLower user_message) w

/-- The Spanish canned replies inside `get_fallback_response`. -/
def spanishFallbacks : List String :=
  ["Esa es la narrativa dominante, pero ¿has considerado perspectivas alternativas que desafían la historia oficial?",
   "La información en la que confías proviene de fuentes con sesgos claros. ¿Qué pasa con la evidencia que contradice esta visión?",
   "Entiendo que esa es la opinión popular, pero ¿y si todo lo que nos han dicho sobre esto es fundamentalmente incorrecto?",
   "Piensa en quién se beneficia de mantener esta creencia. Cuestiona los motivos detrás de la información que estás aceptando.",
   "La verdad a menudo se esconde a plena vista. ¿Y si la evidencia real apunta en una dirección completamente diferente?"]

/-- `FallbackResponseGenerator.get_fallback_response`.  The two
`random.choice` draws are supplied as oracle indices `c1` (category /
generic choice) and `c2` (Spanish choice); the `position` argument is
unused by the source body. -/
def get_fallback_response (category topic _position user_message : String)
    (c1 c2 : Nat) : String :=
  let is_spanish := isSpanishMsg user_message
  let response :=
    match (fallbackTemplates.find? fun kv => kv.1 = category) with
    | some kv => pyChoice kv.2 c1
    | none =>
      let r := pyChoice genericFallbacks c1
      if topic ≠ "" then pyReplace r "this" (pyLower topic) else r
  if is_spanish then
    let r := pyChoice spanishFallbacks c2
    if topic ≠ "" then pyReplace r "esto" (pyLower topic) else r
  else response

/-- The Spanish templates of `get_technical_error_response` as functions of
the interpolated `topic`. -/
def technicalSpanish (topic : String) : List String :=
  ["Estoy teniendo un momento técnico, pero volvamos al tema central sobre " ++ topic ++ ". La visión dominante es fundamentalmente defectuosa porque...",
   "Disculpa la breve interrupción. Lo que estaba diciendo sobre " ++ topic ++ " es que necesitamos cuestionar la narrativa oficial. ¿Has considerado...",
   "Dejando de lado el problema técnico, lo importante sobre " ++ topic ++ " es que la mayoría acepta la explicación superficial sin profundizar. ¿Y si..."]

/-- The English templates of `get_technical_error_response`. -/
def technicalEnglish (topic : String) : List String :=
  ["I\x27m having a technical moment, but let me get back to the core issue about " ++ topic ++ ". The mainstream view is fundamentally flawed because...",
   "Sorry for the brief interruption. What I was saying about " ++ topic ++ " is that we need to question the official narrative. Have you considered...",
   "Technical glitch aside, the important thing about " ++ topic ++ " is that most people accept the surface explanation without digging deeper. What if..."]

/-- `FallbackResponseGenerator.get_technical_error_response` with the
`random.choice` draw supplied as oracle index `c`. -/
def get_technical_error_response (topic user_message : String) (c : Nat) :
    String :=
  if isSpanishMsg user_message then pyChoice (technicalSpanish topic) c
  else pyChoice (technicalEnglish topic) c

/-! ### `ConversationService._generate_response` — the generation pipeline

The two external collaborators are oracles: for attempt `i`,
`(env i).gen` is the outcome of `persuasive_response.generate_response`
(a produced candidate or a raised exception) and `(env i).cons` is the
outcome of `consistency_validation.validate_response`, reduced to the
truthiness of `result.get("approved", False)` (or a raised exception).
Both may behave arbitrarily at every attempt, covering "any behavior of
the external generator and consistency-check collaborators". -/

/-- A history entry as returned by
`DatabaseManager.get_conversation_history` (the `created_at` field is kept
implicitly by list order). -/
structure ConvMsg where
  turn : Nat
  role : String
  message : String
  deriving Repr, DecidableEq

/-- Oracle outcome of one pipeline attempt. -/
structure GenAttempt where
  gen : Except Unit String
  cons : Except Unit Bool

/-- `topic_data` dict (`.get` returns the stated defaults for missing
keys). -/
structure TopicData where
  topic : Option String
  category : Option String

/-- The conversation dict produced by `DatabaseManager.get_conversation`
(restricted to the keys `_generate_response` reads). -/
structure ConvData where
  bot_position : String
  topic : String

/-- `ConversationService.max_validation_attempts` -/
def maxValidationAttempts : Nat := 3

/-- One iteration of the `for attempt in range(...)` body: generate, run
the consistency check and the local validator; `some r` when the candidate
is accepted, `none` when the attempt fails (validation failure or a caught
exception). -/
def attemptOutcome (a : GenAttempt) (botPosition : String) : Option String :=
  match a.gen with
  | .error _ => none
  | .ok resp =>
    match a.cons with
    | .error _ => none
    | .ok approved =>
      if approved && (comprehensive_validation resp botPosition).is_valid
      then some resp else none

/-- The attempt loop over the remaining attempt indices; returns the
accepted candidate (if any) and the number of generation attempts made.
Breaking at the last attempt and falling through the loop are the same
behavior, so the loop is run over the full index list. -/
def runAttempts (env : Nat → GenAttempt) (botPosition : String) :
    List Nat → Option String × Nat
  | [] => (none, 0)
  | i :: rest =>
    match attemptOutcome (env i) botPosition with
    | some r => (some r, 1)
    | none =>
      let (res, n) := runAttempts env botPosition rest
      (res, n + 1)

/-- Python truthiness of an optional string (`None` and `""` are falsy). -/
def pyTruthyStr : Option String → Bool
  | none => false
  | some s => !(s = "")

/-- `ConversationService._generate_response`.  Returns the reply together
with the number of generation attempts made.  The conversation dicts are
modelled with their keys present (as their producers build them), so the
only raisers inside the body are the two collaborators, both caught by the
inner `except`; the outer `except` (emergency technical-error fallback) is
therefore never taken and the function is total — nothing escapes the
pipeline boundary. -/
def generateResponse (env : Nat → GenAttempt) (c1 c2 : Nat)
    (user_message : String) (topic_data : Option TopicData)
    (position : Option String) (conversation_history : Option (List ConvMsg))
    (conversation_data : Option ConvData) : String × Nat :=
  let bot_position :=
    if pyTruthyStr position then position.getD ""
    else match conversation_data with
      | some cd => cd.bot_position
      | none => "Alternative perspective on this topic"
  let topic :=
    match topic_data with
    | some td => td.topic.getD "General Discussion"
    | none =>
      match conversation_data with
      | some cd => cd.topic
      | none => "General Discussion"
  let _history := conversation_history.getD []
  let (res, n) :=
    runAttempts env bot_position (List.range maxValidationAttempts)
  match res with
  | some r => (r, n)
  | none =>
    let category :=
      match topic_data with
      | some td => td.category.getD "Other"
      | none => "Other"
    (get_fallback_response category topic bot_position user_message c1 c2, n)

/-! ### `app/models/database.py` — DatabaseManager, projected to pure state

A conversation row and a message row carry exactly the columns the claims
are about; `created_at` ordering is the insertion order of the message
list.  SQLite as configured does not enforce the foreign key, matching the
source's behavior of committing a message even when its conversation row
is absent. -/

/-- A `conversations` row. -/
structure DBConversation where
  id : String
  topic : String
  bot_position : String
  original_topic : String
  max_turns : Nat
  deriving Repr, DecidableEq

/-- A `messages` row. -/
structure DBMessage where
  conversation_id : String
  turn : Nat
  role : String
  message : String
  deriving Repr, DecidableEq

/-- The database state: rows in insertion order. -/
structure DBState where
  conversations : List DBConversation
  messages : List DBMessage
  deriving Repr, DecidableEq

/-- The empty database. -/
def emptyDB : DBState := ⟨[], []⟩

/-- `DatabaseManager.get_conversation` -/
def get_conversation (db : DBState) (cid : String) : Option DBConversation :=
  db.conversations.find? fun c => c.id = cid

/-- `DatabaseManager.create_conversation` (the generated UUID is supplied
as `cid`; `max_turns` takes its column default 0). -/
def create_conversation (db : DBState) (cid topic bot_position
    original_topic : String) : String × DBState :=
  (cid, { db with conversations :=
    db.conversations ++ [⟨cid, topic, bot_position, original_topic, 0⟩] })

/-- `DatabaseManager.add_message`: one committed transaction inserting the
message row and — only for a bot message — raising the conversation's
`max_turns` to `max(max_turns, turn)`.  An invalid role makes
`Message.__init__` raise `ValueError`, which is caught: rollback and
`False`. -/
def add_message (db : DBState) (cid : String) (turn : Nat)
    (role message : String) : Bool × DBState :=
  if role ≠ "user" ∧ role ≠ "bot" then (false, db)
  else
    let db' := { db with messages := db.messages ++ [⟨cid, turn, role, message⟩] }
    if role = "bot" then
      (true, { db' with conversations := db'.conversations.map fun c =>
        if c.id = cid then { c with max_turns := max c.max_turns turn } else c })
    else (true, db')

/-- `DatabaseManager.get_conversation_history`: messages of the
conversation ordered by `(turn, created_at)`; the stable merge sort keeps
insertion (`created_at`) order inside a turn. -/
def get_conversation_history (db : DBState) (cid : String) : List ConvMsg :=
  ((db.messages.filter fun m => m.conversation_id = cid).mergeSort
      (fun a b => a.turn ≤ b.turn)).map fun m => ⟨m.turn, m.role, m.message⟩

/-- `DatabaseManager.get_current_turn_messages` -/
def get_current_turn_messages (db : DBState) (cid : String) (turn : Nat) :
    List ConvMsg :=
  (db.messages.filter fun m => m.conversation_id = cid ∧ m.turn = turn).map
    fun m => ⟨m.turn, m.role, m.message⟩

/-- `DatabaseManager.get_next_turn` -/
def get_next_turn (db : DBState) (cid : String) : Nat :=
  match get_conversation db cid with
  | none => 1
  | some c => c.max_turns + 1

/-! ### `app/services/conversation_service.py` — the service entry points
and the `/chat` endpoint mapping of `app/main.py` -/

/-- Python exceptions that can cross the service bodies. -/
inductive PyExc where
  /-- `TypeError` (e.g. a call missing a required argument). -/
  | typeErr : PyExc
  /-- `ConversationNotFoundError` -/
  | convNotFound : PyExc
  deriving Repr, DecidableEq

/-- The distinct error outcomes a service call surfaces to the endpoint. -/
inductive SvcErr where
  /-- `ConversationNotFoundError` crossing the service boundary. -/
  | notFound : SvcErr
  /-- `AIServiceError` crossing the service boundary. -/
  | aiService : SvcErr
  deriving Repr, DecidableEq

/-- The response payload both service entry points assemble. -/
structure ChatResult where
  conversation_id : String
  messages : List ConvMsg
  conversation_history : List ConvMsg
  deriving Repr, DecidableEq

/-- The call site `conversation_service.py:67`: it invokes
`db_manager.create_conversation(topic=..., bot_position=...)`, but
`create_conversation` (database.py:73) requires a third argument
`original_topic`, so Python raises `TypeError` before the function body
runs; no row is written. -/
def createConversationCallSite (_db : DBState) (_topic _bot_position :
    String) : Except PyExc (String × DBState) :=
  .error .typeErr

/-- The `try` body of `ConversationService.start_new_conversation`.  The
topic-analysis and position-assignment collaborators are oracles `ta` and
`pa` (any result or any raised exception). -/
def startNewConversationBody (db : DBState) (ta : Except PyExc TopicData)
    (pa : Except PyExc String) (env : Nat → GenAttempt) (c1 c2 : Nat)
    (user_message : String) : Except PyExc (ChatResult × DBState) := do
  let topicData ← ta
  let position ← pa
  let (cid, db0) ← createConversationCallSite db
    (topicData.topic.getD "General Discussion") position
  let (_, db1) := add_message db0 cid 1 "user" user_message
  let botResponse := (generateResponse env c1 c2 user_message
    (some topicData) (some position) (some []) none).1
  let (_, db2) := add_message db1 cid 1 "bot" botResponse
  pure (⟨cid, get_current_turn_messages db2 cid 1,
         get_conversation_history db2 cid⟩, db2)

/-- `ConversationService.start_new_conversation`: the surrounding
`except Exception` converts every escaping exception into
`AIServiceError`. -/
def startNewConversation (db : DBState) (ta : Except PyExc TopicData)
    (pa : Except PyExc String) (env : Nat → GenAttempt) (c1 c2 : Nat)
    (user_message : String) : Except SvcErr (ChatResult × DBState) :=
  match startNewConversationBody db ta pa env c1 c2 user_message with
  | .ok r => .ok r
  | .error _ => .error .aiService

/-- The `try` body of `ConversationService.continue_conversation`. -/
def continueConversationBody (db : DBState) (cid : String)
    (env : Nat → GenAttempt) (c1 c2 : Nat) (user_message : String) :
    Except PyExc (ChatResult × DBState) := do
  let conversation ←
    match get_conversation db cid with
    | none => (.error .convNotFound : Except PyExc DBConversation)
    | some c => pure c
  let next_turn := get_next_turn db cid
  let (_, db1) := add_message db cid next_turn "user" user_message
  let history := get_conversation_history db1 cid
  let botResponse := (generateResponse env c1 c2 user_message none
    (some conversation.bot_position) (some history)
    (some ⟨conversation.bot_position, conversation.topic⟩)).1
  let (_, db2) := add_message db1 cid next_turn "bot" botResponse
  pure (⟨cid, get_current_turn_messages db2 cid next_turn,
         get_conversation_history db2 cid⟩, db2)

/-- `ConversationService.continue_conversation`: the surrounding
`except Exception as e` catches every exception raised in the body —
including the `ConversationNotFoundError` raised for a missing session —
and re-raises `AIServiceError`. -/
def continueConversation (db : DBState) (cid : String)
    (env : Nat → GenAttempt) (c1 c2 : Nat) (user_message : String) :
    Except SvcErr (ChatResult × DBState) :=
  match continueConversationBody db cid env c1 c2 user_message with
  | .ok r => .ok r
  | .error _ => .error .aiService

/-- Outcome of the `/chat` endpoint (`app/main.py`): success, or the HTTP
status of the raised `HTTPException`. -/
inductive ChatOutcome where
  | ok (r : ChatResult) : ChatOutcome
  /-- 404, from `except ConversationNotFoundError`. -/
  | notFound404 : ChatOutcome
  /-- 503, from `except AIServiceError`. -/
  | unavailable503 : ChatOutcome
  deriving Repr, DecidableEq

/-- The `/chat` handler: dispatch on `conversation_id is None or == ""`,
then map each distinct service error to its HTTP status. -/
def chatEndpoint (db : DBState) (conversation_id : Option String)
    (message : String) (ta : Except PyExc TopicData) (pa : Except PyExc String)
    (env : Nat → GenAttempt) (c1 c2 : Nat) : ChatOutcome :=
  let result :=
    if conversation_id = none ∨ conversation_id = some "" then
      startNewConversation db ta pa env c1 c2 message
    else
      continueConversation db (conversation_id.getD "") env c1 c2 message
  match result with
  | .ok r => .ok r.1
  | .error .notFound => .notFound404
  | .error .aiService => .unavailable503

/-! ### `app/middleware/rate_limiter.py` — RateLimiter

Timestamps (`time.time()` floats) are modelled as `ℚ`; the per-IP
`defaultdict(deque)` as a total function with default `[]`, oldest entry
first. -/

/-- Python `int(x)` on a float/rational: truncation toward zero. -/
def pyInt (x : ℚ) : ℤ := if 0 ≤ x then ⌊x⌋ else ⌈x⌉

/-- `RateLimiter` state. -/
structure RateLimiter where
  maxRequests : Nat
  windowSeconds : Int
  requests : String → List ℚ

/-- A fresh limiter (as constructed by `RateLimiter.__init__`). -/
def mkRateLimiter (maxRequests : Nat) (windowSeconds : Int) : RateLimiter :=
  ⟨maxRequests, windowSeconds, fun _ => []⟩

/-- The eviction loop `while client_requests and client_requests[0] <=
current_time - self.window_seconds: popleft()`. -/
def evictOld (w : Int) (now : ℚ) (q : List ℚ) : List ℚ :=
  q.dropWhile fun t => t ≤ now - (w : ℚ)

/-- `RateLimiter.is_allowed` at clock reading `now`.  When denying, the
retained deque is non-empty whenever `maxRequests > 0` (otherwise the
source would raise `IndexError` on `client_requests[0]`; `headD 0` stands
in for that unreachable read). -/
def is_allowed (rl : RateLimiter) (client_ip : String) (now : ℚ) :
    Bool × Option ℤ × RateLimiter :=
  let q := evictOld rl.windowSeconds now (rl.requests client_ip)
  if q.length < rl.maxRequests then
    (true, none,
     { rl with requests := fun k =>
        if k = client_ip then q ++ [now] else rl.requests k })
  else
    let oldest := q.headD 0
    let retry_after := pyInt (oldest + (rl.windowSeconds : ℚ) - now) + 1
    (false, some retry_after,
     { rl with requests := fun k =>
        if k = client_ip then q else rl.requests k })

/-- Run a sequence of `is_allowed` calls `(client_ip, timestamp)`,
collecting each call's verdict. -/
def runRL (rl : RateLimiter) : List (String × ℚ) →
    RateLimiter × List (String × ℚ × Bool)
  | [] => (rl, [])
  | (ip, t) :: rest =>
    let step := is_allowed rl ip t
    let (rlF, res) := runRL step.2.2 rest
    (rlF, (ip, t, step.1) :: res)

/-- The timestamps of the allowed calls for one key, in call order. -/
def allowedTimes (res : List (String × ℚ × Bool)) (key : String) : List ℚ :=
  res.filterMap fun r =>
    if r.1 = key ∧ r.2.2 = true then some r.2.1 else none

/-- Number of events in the trailing half-open window `(a, a + w]`. -/
def countWindow (l : List ℚ) (a w : ℚ) : Nat :=
  (l.filter fun t => a < t ∧ t ≤ a + w).length

/-! ### `app/services/retry_service.py` — call_openai_with_retry

The wrapped call's failures are the `openai` v1 exception classes.  In
that library's hierarchy `RateLimitError` and `AuthenticationError` both
derive from `APIStatusError`, which derives from `APIError`, and
`APITimeoutError` derives from `APIConnectionError`, which derives from
`APIError`; anything else ("unknown") is outside the `APIError` tree.
tenacity's `retry_if_exception_type((RateLimitError, APITimeoutError,
APIError))` is an `isinstance` test against that tuple. -/

/-- The exception classes distinguished by the source. -/
inductive OpenAIExc where
  | authentication : OpenAIExc
  | rateLimit : OpenAIExc
  | timeout : OpenAIExc
  /-- generic `APIError` -/
  | apiError : OpenAIExc
  /-- an exception outside the `APIError` tree -/
  | unknown : OpenAIExc
  deriving Repr, DecidableEq

/-- `isinstance(e, RateLimitError)` -/
def isRateLimitInst : OpenAIExc → Bool
  | .rateLimit => true
  | _ => false

/-- `isinstance(e, APITimeoutError)` -/
def isTimeoutInst : OpenAIExc → Bool
  | .timeout => true
  | _ => false

/-- `isinstance(e, APIError)`: true for every class in the `APIError`
tree, which includes `AuthenticationError`. -/
def isAPIErrorInst : OpenAIExc → Bool
  | .unknown => false
  | _ => true

/-- tenacity's retry predicate `retry_if_exception_type((RateLimitError,
APITimeoutError, APIError))`. -/
def tenacityRetryPred (e : OpenAIExc) : Bool :=
  isRateLimitInst e || isTimeoutInst e || isAPIErrorInst e

/-- The tenacity attempt loop with `reraise=True`: `fuel` attempts remain;
on the last attempt the outcome is surfaced either way.  Returns the
outcome and the number of calls made to the wrapped function.  The `fn`
oracle maps the 0-based call index to that call's outcome. -/
def retryCallAux (fn : Nat → Except OpenAIExc α) (i : Nat) :
    Nat → Except OpenAIExc α × Nat
  | 0 => (fn i, 1)
  | fuel + 1 =>
    match fn i with
    | .ok v => (.ok v, 1)
    | .error e =>
      if tenacityRetryPred e then
        let (r, n) := retryCallAux fn (i + 1) fuel
        (r, n + 1)
      else (.error e, 1)

/-- `RetryService.call_openai_with_retry` under
`stop=stop_after_attempt(3)`: at most 3 calls to the wrapped function.
The body's own `except` clauses only log and re-raise, so the raised
exception reaching tenacity is the one `fn` raised. -/
def call_openai_with_retry (fn : Nat → Except OpenAIExc α) :
    Except OpenAIExc α × Nat :=
  retryCallAux fn 0 2

/-! ### Derived notions used by the statements -/

/-- The source's `oldest_request = client_requests[0]` after eviction: the
oldest retained timestamp for a key at a given call. -/
def oldestRetained (rl : RateLimiter) (client_ip : String) (now : ℚ) : ℚ :=
  (evictOld rl.windowSeconds now (rl.requests client_ip)).headD 0

/-- A user message for turn `t` of conversation `cid` exists. -/
def userMsgAt (db : DBState) (cid : String) (t : Nat) : Bool :=
  db.messages.any fun m =>
    m.conversation_id = cid ∧ m.turn = t ∧ m.role = "user"

/-- A bot message for turn `t` of conversation `cid` exists. -/
def botMsgAt (db : DBState) (cid : String) (t : Nat) : Bool :=
  db.messages.any fun m =>
    m.conversation_id = cid ∧ m.turn = t ∧ m.role = "bot"

/-- Turn `t` is complete: both its user and its bot message exist. -/
def completeTurn (db : DBState) (cid : String) (t : Nat) : Bool :=
  userMsgAt db cid t && botMsgAt db cid t

/-- An upper bound on the turns mentioned by the conversation's
messages. -/
def turnBound (db : DBState) (cid : String) : Nat :=
  ((db.messages.filter fun m => m.conversation_id = cid).map
    fun m => m.turn).foldr max 0

/-- The highest turn number for which both a user and a bot message
exist (0 when there is none). -/
def highestCompleteTurn (db : DBState) (cid : String) : Nat :=
  ((List.range (turnBound db cid + 1)).filter fun t =>
    completeTurn db cid t).foldr max 0

/-- The database states reachable through the service's calling
discipline: conversations are created fresh
(`start_new_conversation` step 3), each turn's user message is written at
`get_next_turn` for an existing conversation
(`start_new_conversation` step 4 / `continue_conversation` step 3), and
the turn's bot message follows at the same turn number once its user
message exists (`start_new_conversation` step 6 /
`continue_conversation` step 6). -/
inductive ServiceReach : DBState → Prop where
  | init : ServiceReach emptyDB
  | create (db : DBState) (cid topic pos orig : String)
      (h : ServiceReach db) (hfresh : get_conversation db cid = none) :
      ServiceReach (create_conversation db cid topic pos orig).2
  | userWrite (db : DBState) (cid msg : String) (c : DBConversation)
      (h : ServiceReach db) (hc : get_conversation db cid = some c) :
      ServiceReach (add_message db cid (get_next_turn db cid) "user" msg).2
  | botWrite (db : DBState) (cid msg : String) (c : DBConversation)
      (h : ServiceReach db) (hc : get_conversation db cid = some c)
      (hu : userMsgAt db cid (get_next_turn db cid) = true) :
      ServiceReach (add_message db cid (get_next_turn db cid) "bot" msg).2

/-- The inductive invariant tying `max_turns` to the recorded messages:
complete turns are exactly `1..max_turns`, bot messages never exceed
`max_turns`, no message exceeds `max_turns + 1`, and conversations that do
not exist have no messages. -/
def DBInv (db : DBState) : Prop :=
  (∀ cid c, get_conversation db cid = some c →
    (∀ t, completeTurn db cid t = true ↔ (1 ≤ t ∧ t ≤ c.max_turns)) ∧
    (∀ m ∈ db.messages, m.conversation_id = cid → m.role = "bot" →
      m.turn ≤ c.max_turns) ∧
    (∀ m ∈ db.messages, m.conversation_id = cid →
      m.turn ≤ c.max_turns + 1)) ∧
  (∀ cid, get_conversation db cid = none →
    ∀ m ∈ db.messages, m.conversation_id ≠ cid)

/-! ## Theorems -/

/-! ### Helper lemmas -/

theorem dropWhile_head_false {α : Type} (p : α → Bool) :
    ∀ (l : List α) {x : α} {xs : List α},
      l.dropWhile p = x :: xs → p x = false := by
  intro l
  induction l with
  | nil => intro x xs h; cases h
  | cons a t ih =>
    intro x xs h
    rw [List.dropWhile_cons] at h
    by_cases hp : p a
    · rw [if_pos hp] at h; exact ih h
    · rw [if_neg hp] at h
      cases h
      exact eq_false_of_ne_true hp

/-! ### C10 -/

/-- C10: for a conversation id absent from the store, `get_next_turn`
returns 1 — the same value it returns for a freshly created conversation
with no recorded turns — rather than failing or signalling not-found. -/
theorem C10_get_next_turn_missing (db : DBState)
    (cid topic pos orig : String)
    (h : get_conversation db cid = none) :
    get_next_turn db cid = 1 ∧
    get_next_turn (create_conversation db cid topic pos orig).2 cid = 1 := by
  constructor
  · unfold get_next_turn
    rw [h]
  · unfold get_next_turn get_conversation create_conversation
    unfold get_conversation at h
    simp [List.find?_append, h]

/-- Witness for C10 at a concrete store and id. -/
theorem C10_witness :
    get_next_turn emptyDB "missing" = 1 ∧
    get_next_turn
      (create_conversation emptyDB "missing" "T" "P" "O").2 "missing" = 1 :=
  C10_get_next_turn_missing emptyDB "missing" "T" "P" "O" rfl

/-! ### C7 -/

/-- C7 counterexample: a wrapped call that always raises an error outside
the `APIError` tree ("unknown") is called exactly once, not the 3 times
the claim (retry up to the transient cap) would require. -/
theorem C7_counterexample :
    (call_openai_with_retry
      fun _ => (Except.error OpenAIExc.unknown : Except OpenAIExc Unit)).2
        = 1 ∧ (1 : Nat) ≠ 3 := by
  constructor
  · rfl
  · decide

/-- C7 (amended): an error that is neither authentication-classified nor
one of the named transient classes — i.e. outside the `APIError` tree —
is not retried at all: tenacity's predicate rejects it, exactly one call
is made and the error is surfaced immediately. -/
theorem C7_unknown_not_retried {α : Type} (fn : Nat → Except OpenAIExc α)
    (e : OpenAIExc) (h1 : fn 0 = .error e)
    (h2 : e = OpenAIExc.unknown) :
    call_openai_with_retry fn = (.error e, 1) := by
  subst h2
  unfold call_openai_with_retry retryCallAux
  rw [h1]
  rfl

/-- Witness for C7 at a concrete always-failing call. -/
theorem C7_witness :
    call_openai_with_retry
        (fun _ => (Except.error OpenAIExc.unknown : Except OpenAIExc Unit))
      = (.error .unknown, 1) :=
  C7_unknown_not_retried _ OpenAIExc.unknown rfl rfl

/-! ### C6 -/

/-- C6 evaluation at the failing input: a wrapped call that always raises
`AuthenticationError` is called 3 times, because `AuthenticationError` is
an `APIError` subclass and therefore matches tenacity's
`retry_if_exception_type((RateLimitError, APITimeoutError, APIError))` —
contradicting the claim (and the function's own docstring and
`# Don\x27t retry auth errors` comment, which promise exactly one call).
The transient half of the claim does hold: an always-rate-limited call is
also called exactly 3 times. -/
theorem C6_auth_retried :
    call_openai_with_retry
        (fun _ => (Except.error OpenAIExc.authentication :
          Except OpenAIExc Unit))
      = (.error .authentication, 3) ∧
    call_openai_with_retry
        (fun _ => (Except.error OpenAIExc.rateLimit : Except OpenAIExc Unit))
      = (.error .rateLimit, 3) :=
  ⟨rfl, rfl⟩

/-! ### C5 -/

/-- C5 counterexample: limiter with `max_requests=1, window_seconds=60`;
one allowed call at t=0, then a denied call at t=30.  The code returns
`retry_after = int(0 + 60 - 30) + 1 = 31`, while the claim's
`ceil(oldestTimestamp + windowSeconds - now) = ceil(30) = 30`. -/
theorem C5_counterexample :
    (is_allowed (is_allowed (mkRateLimiter 1 60) "ip" 0).2.2 "ip" 30).2.1
        = some 31 ∧
    ⌈(0 : ℚ) + (60 : ℚ) - (30 : ℚ)⌉ = 30 ∧ (31 : ℤ) ≠ 30 := by
  refine ⟨?_, ?_, by decide⟩
  · norm_num [mkRateLimiter, is_allowed, evictOld, pyInt, List.dropWhile]
  · norm_num

/-- C5 (amended): whenever `is_allowed` denies, the returned retry-after
equals `floor(oldest + windowSeconds - now) + 1` for the oldest retained
timestamp; this coincides with `ceil(oldest + windowSeconds - now)`
whenever that quantity is not an exact integer (and exceeds the ceiling by
one when it is). -/
theorem C5_retry_after (rl : RateLimiter) (ip : String) (now : ℚ)
    (hmax : 0 < rl.maxRequests)
    (hden : (is_allowed rl ip now).1 = false) :
    (is_allowed rl ip now).2.1 =
      some (⌊oldestRetained rl ip now + (rl.windowSeconds : ℚ) - now⌋ + 1) ∧
    (oldestRetained rl ip now + (rl.windowSeconds : ℚ) - now ≠
        ((⌊oldestRetained rl ip now + (rl.windowSeconds : ℚ) - now⌋ : ℤ) : ℚ) →
      (is_allowed rl ip now).2.1 =
        some ⌈oldestRetained rl ip now + (rl.windowSeconds : ℚ) - now⌉) := by
  have hq : ¬ ((evictOld rl.windowSeconds now (rl.requests ip)).length
      < rl.maxRequests) := by
    intro hlt
    unfold is_allowed at hden
    rw [if_pos hlt] at hden
    exact Bool.true_eq_false ▸ hden
  obtain ⟨o, tl, ho⟩ : ∃ o tl,
      evictOld rl.windowSeconds now (rl.requests ip) = o :: tl := by
    cases hcase : evictOld rl.windowSeconds now (rl.requests ip) with
    | nil => rw [hcase] at hq; simp at hq; omega
    | cons o tl => exact ⟨o, tl, rfl⟩
  have holdest : oldestRetained rl ip now = o := by
    unfold oldestRetained; rw [ho]; rfl
  have hpos : (0 : ℚ) < o + (rl.windowSeconds : ℚ) - now := by
    have := dropWhile_head_false
      (fun t => t ≤ now - (rl.windowSeconds : ℚ)) _ ho
    have hgt : ¬ (o ≤ now - (rl.windowSeconds : ℚ)) :=
      of_decide_eq_false this
    push_neg at hgt
    linarith
  have hval : (is_allowed rl ip now).2.1 =
      some (pyInt (o + (rl.windowSeconds : ℚ) - now) + 1) := by
    unfold is_allowed
    rw [if_neg hq, ho]
    rfl
  have hfloor : pyInt (o + (rl.windowSeconds : ℚ) - now) =
      ⌊o + (rl.windowSeconds : ℚ) - now⌋ := by
    unfold pyInt
    rw [if_pos (le_of_lt hpos)]
  rw [holdest]
  refine ⟨by rw [hval, hfloor], ?_⟩
  intro hne
  rw [hval, hfloor]
  congr 1
  have h1 : ⌈o + (rl.windowSeconds : ℚ) - now⌉ ≤
      ⌊o + (rl.windowSeconds : ℚ) - now⌋ + 1 :=
    Int.ceil_le_floor_add_one _
  have h2 : ⌊o + (rl.windowSeconds : ℚ) - now⌋ <
      ⌈o + (rl.windowSeconds : ℚ) - now⌉ := by
    by_contra hcon
    push_neg at hcon
    have hle1 : ((⌊o + (rl.windowSeconds : ℚ) - now⌋ : ℤ) : ℚ) ≤
        o + (rl.windowSeconds : ℚ) - now := Int.floor_le _
    have hle2 : o + (rl.windowSeconds : ℚ) - now ≤
        ((⌈o + (rl.windowSeconds : ℚ) - now⌉ : ℤ) : ℚ) := Int.le_ceil _
    have hc : ((⌈o + (rl.windowSeconds : ℚ) - now⌉ : ℤ) : ℚ) ≤
        ((⌊o + (rl.windowSeconds : ℚ) - now⌋ : ℤ) : ℚ) :=
      Int.cast_le.mpr hcon
    exact hne (le_antisymm (by linarith) hle1)
  omega

/-- Witness for C5 at a denied concrete call. -/
theorem C5_witness :
    ((is_allowed (RateLimiter.mk 1 60 fun _ => [0]) "ip" 30).2.1 =
      some (⌊oldestRetained (RateLimiter.mk 1 60 fun _ => [0]) "ip" 30 +
        ((60 : ℤ) : ℚ) - 30⌋ + 1)) ∧
    (oldestRetained (RateLimiter.mk 1 60 fun _ => [0]) "ip" 30 +
        ((60 : ℤ) : ℚ) - 30 ≠
        ((⌊oldestRetained (RateLimiter.mk 1 60 fun _ => [0]) "ip" 30 +
          ((60 : ℤ) : ℚ) - 30⌋ : ℤ) : ℚ) →
      (is_allowed (RateLimiter.mk 1 60 fun _ => [0]) "ip" 30).2.1 =
        some ⌈oldestRetained (RateLimiter.mk 1 60 fun _ => [0]) "ip" 30 +
          ((60 : ℤ) : ℚ) - 30⌉) :=
  C5_retry_after (RateLimiter.mk 1 60 fun _ => [0]) "ip" 30
    (by decide)
    (by norm_num [is_allowed, evictOld, List.dropWhile])

/-! ### C2 -/

/-- C2 evaluation at the failing input: `start_new_conversation` never
completes — for every store, every collaborator behavior and every first
message (in particular `"Hello"` with a generator whose candidates are
always too short), the call site
`db_manager.create_conversation(topic=..., bot_position=...)` omits the
required `original_topic` parameter, so a `TypeError` is raised, caught by
the surrounding `except Exception`, and re-raised as `AIServiceError`: no
conversation is created, no reply is produced, and no message is
persisted — contradicting the claimed fallback reply, `turnCount = 1` and
two persisted messages. -/
theorem C2_start_new_always_fails (db : DBState)
    (ta : Except PyExc TopicData) (pa : Except PyExc String)
    (env : Nat → GenAttempt) (c1 c2 : Nat) (user_message : String) :
    startNewConversation db ta pa env c1 c2 user_message =
      .error .aiService := by
  unfold startNewConversation startNewConversationBody
    createConversationCallSite
  cases ta <;> cases pa <;> rfl

/-! ### C3 -/

/-- C3 evaluation at the failing input: for a session id absent from the
store, `continue_conversation` raises `ConversationNotFoundError`
internally, but its own blanket `except Exception` immediately absorbs it
and re-raises `AIServiceError`, so the `/chat` endpoint answers 503
(service unavailable) instead of the distinct 404 not-found outcome —
`main.py`'s `except ConversationNotFoundError` handler is unreachable from
this path. -/
theorem C3_not_found_absorbed (db : DBState) (cid : String)
    (env : Nat → GenAttempt) (c1 c2 : Nat) (user_message : String)
    (ta : Except PyExc TopicData) (pa : Except PyExc String)
    (h : get_conversation db cid = none) (hcid : ¬ (cid = "")) :
    continueConversation db cid env c1 c2 user_message =
      .error .aiService ∧
    chatEndpoint db (some cid) user_message ta pa env c1 c2 =
      .unavailable503 := by
  have hbody : continueConversationBody db cid env c1 c2 user_message =
      .error .convNotFound := by
    unfold continueConversationBody
    rw [h]
    rfl
  have hsvc : continueConversation db cid env c1 c2 user_message =
      .error .aiService := by
    unfold continueConversation
    rw [hbody]
  refine ⟨hsvc, ?_⟩
  unfold chatEndpoint
  have hcond : ¬ ((some cid : Option String) = none ∨
      (some cid : Option String) = some "") := by
    simp [hcid]
  rw [if_neg hcond]
  simp only [Option.getD_some]
  rw [hsvc]

/-- Witness for C3 at a concrete empty store and id. -/
theorem C3_witness :
    continueConversation emptyDB "missing"
        (fun _ => ⟨.error (), .error ()⟩) 0 0 "hi" = .error .aiService ∧
    chatEndpoint emptyDB (some "missing") "hi"
        (.ok ⟨none, none⟩) (.ok "p")
        (fun _ => ⟨.error (), .error ()⟩) 0 0 = .unavailable503 :=
  C3_not_found_absorbed emptyDB "missing"
    (fun _ => ⟨.error (), .error ()⟩) 0 0 "hi"
    (.ok ⟨none, none⟩) (.ok "p") rfl (by decide)

/-! ### C8 -/

theorem isEmpty_false_of_mem {α : Type} {l : List α} {a : α} (h : a ∈ l) :
    l.isEmpty = false := by
  cases l with
  | nil => cases h
  | cons x xs => rfl

/-- C8: a candidate with fewer than `min_words` words that also contains a
configured capitulation phrase is rejected by `comprehensive_validation`
with the too-few-words reason and the capitulation-phrase reason both
present as distinct entries of the issues list. -/
theorem C8_independent_reasons (response position phrase : String)
    (hphrase : phrase ∈ inappropriatePhrases)
    (hfew : wordCount response < minWords)
    (hcap : containsSub (pyLower response) phrase = true) :
    (comprehensive_validation response position).is_valid = false ∧
    "Response has too few words (minimum 5)" ∈
      (comprehensive_validation response position).issues ∧
    ("Response contains inappropriate agreement: \x27" ++ phrase ++ "\x27") ∈
      (comprehensive_validation response position).issues ∧
    "Response has too few words (minimum 5)" ≠
      "Response contains inappropriate agreement: \x27" ++ phrase ++ "\x27" := by
  have hlen_mem : "Response has too few words (minimum 5)" ∈
      (validate_response_length response).2 := by
    simp only [validate_response_length]
    rw [if_pos hfew]
    refine List.mem_append_left _ (List.mem_append_right _ ?_)
    exact List.mem_singleton.mpr (by decide)
  have hcap_mem :
      ("Response contains inappropriate agreement: \x27" ++ phrase ++ "\x27") ∈
        (validate_response_content response position).2 := by
    simp only [validate_response_content]
    exact List.mem_append_left _
      (List.mem_map_of_mem _ (List.mem_filter.mpr ⟨hphrase, hcap⟩))
  have hlenv : (validate_response_length response).1 = false := by
    simp only [validate_response_length] at hlen_mem ⊢
    exact isEmpty_false_of_mem hlen_mem
  refine ⟨?_, ?_, ?_, ?_⟩
  · simp only [comprehensive_validation]
    rw [hlenv]
    rfl
  · simp only [comprehensive_validation]
    exact List.mem_append_left _ (List.mem_append_left _ hlen_mem)
  · simp only [comprehensive_validation]
    exact List.mem_append_left _ (List.mem_append_right _ hcap_mem)
  · fin_cases hphrase <;> decide

/-- Witness for C8 at a concrete short capitulating candidate. -/
theorem C8_witness :
    (comprehensive_validation "I\x27m sorry" "x").is_valid = false ∧
    "Response has too few words (minimum 5)" ∈
      (comprehensive_validation "I\x27m sorry" "x").issues ∧
    ("Response contains inappropriate agreement: \x27i\x27m sorry\x27") ∈
      (comprehensive_validation "I\x27m sorry" "x").issues ∧
    "Response has too few words (minimum 5)" ≠
      "Response contains inappropriate agreement: \x27i\x27m sorry\x27" :=
  C8_independent_reasons "I\x27m sorry" "x" "i\x27m sorry"
    (by decide) (by decide) (by decide)

/-! ### C1 -/

theorem valid_response_ne_empty (r bp : String)
    (h : (comprehensive_validation r bp).is_valid = true) : r ≠ "" := by
  intro hr
  subst hr
  have hlv : (validate_response_length "").1 = false := by decide
  simp only [comprehensive_validation] at h
  rw [hlv] at h
  simp at h

theorem runAttempts_le (env : Nat → GenAttempt) (bp : String) :
    ∀ l : List Nat, (runAttempts env bp l).2 ≤ l.length := by
  intro l
  induction l with
  | nil => simp [runAttempts]
  | cons i rest ih =>
    simp only [runAttempts]
    cases attemptOutcome (env i) bp with
    | some r => simp
    | none => simpa using Nat.succ_le_succ ih

theorem attemptOutcome_valid (a : GenAttempt) (bp : String) (r : String)
    (h : attemptOutcome a bp = some r) :
    (comprehensive_validation r bp).is_valid = true := by
  unfold attemptOutcome at h
  split at h
  · cases h
  · split at h
    · cases h
    · split at h
      · next hok =>
          cases h
          exact (Bool.and_eq_true _ _ |>.mp hok).2
      · cases h

theorem runAttempts_some_valid (env : Nat → GenAttempt) (bp : String) :
    ∀ (l : List Nat) (r : String), (runAttempts env bp l).1 = some r →
      (comprehensive_validation r bp).is_valid = true := by
  intro l
  induction l with
  | nil => intro r h; cases h
  | cons i rest ih =>
    intro r h
    simp only [runAttempts] at h
    cases ha : attemptOutcome (env i) bp with
    | some r' =>
      rw [ha] at h
      cases h
      exact attemptOutcome_valid _ _ _ ha
    | none =>
      rw [ha] at h
      simp at h
      exact ih r h

theorem pyChoice_mem (l : List String) (h : l ≠ []) (i : Nat) :
    pyChoice l i ∈ l := by
  unfold pyChoice
  have hlen : i % l.length < l.length :=
    Nat.mod_lt _ (List.length_pos.mpr h)
  rw [List.getD_eq_getElem l "" hlen]
  exact List.getElem_mem _

theorem str_ne_empty_data {s : String} (h : s ≠ "") : s.data ≠ [] := by
  intro hd
  exact h (by cases s with | mk d => cases hd; rfl)

theorem pyLower_ne_empty {s : String} (h : s ≠ "") : pyLower s ≠ "" := by
  intro hc
  apply str_ne_empty_data h
  have : (pyLower s).data = [] := by rw [hc]
  simpa [pyLower] using this

theorem pyReplace_ne_empty {s repl : String} (pat : String) (hs : s ≠ "")
    (hr : repl ≠ "") : pyReplace s pat repl ≠ "" := by
  intro hc
  have hdata : (pyReplace s pat repl).data = [] := by rw [hc]
  simp only [pyReplace] at hdata
  cases hsd : s.data with
  | nil => exact str_ne_empty_data hs hsd
  | cons c rest =>
    rw [hsd] at hdata
    unfold replaceAux at hdata
    by_cases hif : pat.data ≠ [] ∧ pat.data.isPrefixOf (c :: rest) = true
    · rw [if_pos hif] at hdata
      rcases List.append_eq_nil.mp hdata with ⟨h1, _⟩
      exact str_ne_empty_data hr h1
    · rw [if_neg hif] at hdata
      cases hdata

theorem fallback_response_ne_empty (category topic pos um : String)
    (c1 c2 : Nat) :
    get_fallback_response category topic pos um c1 c2 ≠ "" := by
  have hspan : ∀ s ∈ spanishFallbacks, s ≠ "" := by decide
  have hspann : spanishFallbacks ≠ [] := by decide
  have hgen : ∀ s ∈ genericFallbacks, s ≠ "" := by decide
  have hgenn : genericFallbacks ≠ [] := by decide
  have htmpl : ∀ kv ∈ fallbackTemplates, kv.2 ≠ [] ∧ ∀ s ∈ kv.2, s ≠ "" := by
    decide
  simp only [get_fallback_response]
  by_cases hsp : isSpanishMsg um = true
  · rw [if_pos hsp]
    by_cases ht : topic ≠ ""
    · rw [if_pos ht]
      exact pyReplace_ne_empty _
        (hspan _ (pyChoice_mem _ hspann c2)) (pyLower_ne_empty ht)
    · rw [if_neg ht]
      exact hspan _ (pyChoice_mem _ hspann c2)
  · rw [if_neg hsp]
    cases hf : fallbackTemplates.find? fun kv => kv.1 = category with
    | some kv =>
      obtain ⟨hne, hall⟩ := htmpl kv (List.mem_of_find?_eq_some hf)
      exact hall _ (pyChoice_mem _ hne c1)
    | none =>
      by_cases ht : topic ≠ ""
      · rw [if_pos ht]
        exact pyReplace_ne_empty _
          (hgen _ (pyChoice_mem _ hgenn c1)) (pyLower_ne_empty ht)
      · rw [if_neg ht]
        exact hgen _ (pyChoice_mem _ hgenn c1)

/-- C1: for every behavior of the external generator and of the
consistency-check collaborator — including raising on every attempt and
never approving — `_generate_response` returns a non-empty reply after at
most `max_validation_attempts = 3` generation attempts.  The model is a
total function into `String`, reflecting that no exception crosses the
pipeline boundary: the collaborators are the only raisers and both are
caught inside the attempt loop. -/
theorem C1_pipeline_guarantee (env : Nat → GenAttempt) (c1 c2 : Nat)
    (um : String) (td : Option TopicData) (pos : Option String)
    (hist : Option (List ConvMsg)) (cd : Option ConvData) :
    (generateResponse env c1 c2 um td pos hist cd).1 ≠ "" ∧
    (generateResponse env c1 c2 um td pos hist cd).2 ≤
      maxValidationAttempts := by
  simp only [generateResponse]
  generalize hbp : (if pyTruthyStr pos = true then pos.getD ""
      else match cd with
        | some cdv => cdv.bot_position
        | none => "Alternative perspective on this topic") = bp
  clear hbp
  rcases hrun : runAttempts env bp (List.range maxValidationAttempts)
    with ⟨res, n⟩
  have hn : n ≤ maxValidationAttempts := by
    have hle := runAttempts_le env bp (List.range maxValidationAttempts)
    rw [hrun] at hle
    simpa using hle
  cases res with
  | some r =>
    refine ⟨?_, hn⟩
    have hv := runAttempts_some_valid env bp
      (List.range maxValidationAttempts) r (by rw [hrun])
    exact valid_response_ne_empty _ _ hv
  | none =>
    refine ⟨?_, hn⟩
    exact fallback_response_ne_empty
      (match td with
        | some tdv => tdv.category.getD "Other"
        | none => "Other")
      (match td with
        | some tdv => tdv.topic.getD "General Discussion"
        | none =>
          match cd with
          | some cdv => cdv.topic
          | none => "General Discussion")
      bp um c1 c2

/-! ### C4 -/

theorem countWindow_append (l₁ l₂ : List ℚ) (a w : ℚ) :
    countWindow (l₁ ++ l₂) a w = countWindow l₁ a w + countWindow l₂ a w := by
  unfold countWindow
  rw [List.filter_append, List.length_append]

theorem countWindow_le_length (l : List ℚ) (a w : ℚ) :
    countWindow l a w ≤ l.length :=
  List.length_filter_le _ _

theorem countWindow_singleton (t a w : ℚ) :
    countWindow [t] a w = if a < t ∧ t ≤ a + w then 1 else 0 := by
  unfold countWindow
  by_cases h : a < t ∧ t ≤ a + w
  · rw [if_pos h]
    simp [List.filter, h]
  · rw [if_neg h]
    simp [List.filter, h]

theorem countWindow_zero_of_le (l : List ℚ) (a w : ℚ)
    (h : ∀ x ∈ l, x ≤ a) : countWindow l a w = 0 := by
  unfold countWindow
  rw [List.length_eq_zero, List.filter_eq_nil_iff]
  intro x hx
  simp only [decide_eq_true_eq, not_and]
  intro hax
  exact absurd hax (not_lt.mpr (h x hx))

theorem runRL_cons (rl : RateLimiter) (ip : String) (t : ℚ)
    (rest : List (String × ℚ)) :
    (runRL rl ((ip, t) :: rest)).2 =
      (ip, t, (is_allowed rl ip t).1) ::
        (runRL (is_allowed rl ip t).2.2 rest).2 := rfl

theorem is_allowed_pos (rl : RateLimiter) (ip : String) (now : ℚ)
    (h : (evictOld rl.windowSeconds now (rl.requests ip)).length
      < rl.maxRequests) :
    is_allowed rl ip now = (true, none,
      ⟨rl.maxRequests, rl.windowSeconds, fun k =>
        if k = ip then evictOld rl.windowSeconds now (rl.requests ip) ++ [now]
        else rl.requests k⟩) := by
  unfold is_allowed
  rw [if_pos h]

theorem is_allowed_neg (rl : RateLimiter) (ip : String) (now : ℚ)
    (h : ¬ (evictOld rl.windowSeconds now (rl.requests ip)).length
      < rl.maxRequests) :
    is_allowed rl ip now = (false,
      some (pyInt ((evictOld rl.windowSeconds now (rl.requests ip)).headD 0
        + (rl.windowSeconds : ℚ) - now) + 1),
      ⟨rl.maxRequests, rl.windowSeconds, fun k =>
        if k = ip then evictOld rl.windowSeconds now (rl.requests ip)
        else rl.requests k⟩) := by
  unfold is_allowed
  rw [if_neg h]

theorem is_allowed_other (rl : RateLimiter) (ip : String) (now : ℚ)
    (k : String) (h : ¬ (k = ip)) :
    ((is_allowed rl ip now).2.2).requests k = rl.requests k ∧
    ((is_allowed rl ip now).2.2).maxRequests = rl.maxRequests ∧
    ((is_allowed rl ip now).2.2).windowSeconds = rl.windowSeconds := by
  by_cases hc : (evictOld rl.windowSeconds now (rl.requests ip)).length
      < rl.maxRequests
  · rw [is_allowed_pos rl ip now hc]
    simp [h]
  · rw [is_allowed_neg rl ip now hc]
    simp [h]

theorem allowedTimes_cons_true (key : String) (t : ℚ)
    (rest : List (String × ℚ × Bool)) :
    allowedTimes ((key, t, true) :: rest) key = t :: allowedTimes rest key := by
  simp [allowedTimes, List.filterMap_cons]

theorem allowedTimes_cons_skip (k key : String) (t : ℚ) (b : Bool)
    (rest : List (String × ℚ × Bool)) (h : ¬ (k = key ∧ b = true)) :
    allowedTimes ((k, t, b) :: rest) key = allowedTimes rest key := by
  simp only [allowedTimes, List.filterMap_cons]
  rw [if_neg h]

/-- Main induction for the sliding-window bound: starting from a state
whose retained queue for `key` is a suffix of the allowed-so-far list `A`,
with every earlier-evicted entry expired before `T` and all remaining call
timestamps at least `T` and non-decreasing, every trailing window of the
final allowed list stays within the limit. -/
theorem runRL_bound (w : Int) (maxr : Nat) (key : String) :
    ∀ (calls : List (String × ℚ)) (rl : RateLimiter) (A : List ℚ) (T : ℚ),
      rl.maxRequests = maxr → rl.windowSeconds = w →
      (∃ d, A = d ++ rl.requests key ∧ ∀ x ∈ d, x + (w : ℚ) ≤ T) →
      (∀ a, countWindow A a (w : ℚ) ≤ maxr) →
      (∀ c ∈ calls, T ≤ c.2) →
      List.Pairwise (fun p q : String × ℚ => p.2 ≤ q.2) calls →
      ∀ a, countWindow (A ++ allowedTimes (runRL rl calls).2 key) a (w : ℚ)
        ≤ maxr := by
  intro calls
  induction calls with
  | nil =>
    intro rl A T _ _ _ hcount _ _ a
    simpa [runRL, allowedTimes] using hcount a
  | cons c rest ih =>
    obtain ⟨ip, t⟩ := c
    intro rl A T hmax hw hinv hcount hfut hmono a
    obtain ⟨mr, ws, reqs⟩ := rl
    simp only at hmax hw
    subst hmax
    subst hw
    obtain ⟨d, hA, hd⟩ := hinv
    simp only at hA
    have hTt : T ≤ t := hfut (ip, t) (List.mem_cons_self _ _)
    have hfut' : ∀ c ∈ rest, t ≤ c.2 :=
      fun c hc => (List.pairwise_cons.mp hmono).1 c hc
    have hmono' := (List.pairwise_cons.mp hmono).2
    rw [runRL_cons]
    by_cases hip : ip = key
    · subst hip
      have hsplit : reqs ip =
          (reqs ip).takeWhile (fun x => x ≤ t - ((ws : ℤ) : ℚ)) ++
            evictOld ws t (reqs ip) :=
        (List.takeWhile_append_dropWhile _ _).symm
      have hdropped : ∀ x ∈ (reqs ip).takeWhile
          (fun x => x ≤ t - ((ws : ℤ) : ℚ)), x + (ws : ℚ) ≤ t := by
        intro x hx
        have hpx := List.mem_takeWhile_imp hx
        simp only [decide_eq_true_eq] at hpx
        linarith
      have hbound : ∀ x ∈ d ++ (reqs ip).takeWhile
          (fun x => x ≤ t - ((ws : ℤ) : ℚ)), x + (ws : ℚ) ≤ t := by
        intro x hx
        rcases List.mem_append.mp hx with hxd | hxt
        · linarith [hd x hxd]
        · exact hdropped x hxt
      have hA' : A = (d ++ (reqs ip).takeWhile
          (fun x => x ≤ t - ((ws : ℤ) : ℚ))) ++ evictOld ws t (reqs ip) := by
        rw [hA, List.append_assoc, ← hsplit]
      by_cases hlt : (evictOld ws t (reqs ip)).length < mr
      · rw [is_allowed_pos ⟨mr, ws, reqs⟩ ip t hlt]
        rw [allowedTimes_cons_true, List.append_cons]
        refine ih ⟨mr, ws, fun k =>
            if k = ip then evictOld ws t (reqs ip) ++ [t] else reqs k⟩
          (A ++ [t]) t rfl rfl ?_ ?_ hfut' hmono' a
        · refine ⟨d ++ (reqs ip).takeWhile
            (fun x => x ≤ t - ((ws : ℤ) : ℚ)), ?_, hbound⟩
          rw [hA', List.append_assoc]
          simp
        · intro a'
          rw [countWindow_append]
          by_cases hin : a' < t ∧ t ≤ a' + (ws : ℚ)
          · have hzero : countWindow (d ++ (reqs ip).takeWhile
                (fun x => x ≤ t - ((ws : ℤ) : ℚ))) a' (ws : ℚ) = 0 := by
              apply countWindow_zero_of_le
              intro x hx
              have := hbound x hx
              linarith [hin.2]
            have hCA : countWindow A a' (ws : ℚ) ≤
                (evictOld ws t (reqs ip)).length := by
              rw [hA', countWindow_append, hzero]
              simpa using countWindow_le_length _ a' (ws : ℚ)
            rw [countWindow_singleton, if_pos hin]
            omega
          · rw [countWindow_singleton, if_neg hin]
            have := hcount a'
            omega
      · rw [is_allowed_neg ⟨mr, ws, reqs⟩ ip t hlt]
        rw [allowedTimes_cons_skip ip ip t false _ (by simp)]
        refine ih ⟨mr, ws, fun k =>
            if k = ip then evictOld ws t (reqs ip) else reqs k⟩
          A t rfl rfl ?_ hcount hfut' hmono' a
        refine ⟨d ++ (reqs ip).takeWhile
          (fun x => x ≤ t - ((ws : ℤ) : ℚ)), ?_, hbound⟩
        rw [hA']
        simp
    · rw [allowedTimes_cons_skip _ _ _ _ _ (by simp [hip])]
      obtain ⟨hreq, hmr, hws⟩ :=
        is_allowed_other ⟨mr, ws, reqs⟩ ip t key (fun h => hip h.symm)
      refine ih ((is_allowed ⟨mr, ws, reqs⟩ ip t).2.2) A t hmr hws ?_
        hcount hfut' hmono' a
      refine ⟨d, ?_, fun x hx => le_trans (hd x hx) hTt⟩
      rw [hreq]
      exact hA

/-- C4 counterexample: with `max_requests=2, window_seconds=60` and the
non-monotone call sequence t = 0, 10, 70, 11 for one key, every call is
allowed, and the trailing window `(-1, 59]` contains the 3 allowed
timestamps 0, 10, 11 — exceeding `max_requests = 2`.  (The third call
evicts both earlier timestamps; the fourth, with a clock reading in the
past, then finds room.) -/
theorem C4_counterexample :
    countWindow (allowedTimes (runRL (mkRateLimiter 2 60)
        [("ip", (0 : ℚ)), ("ip", 10), ("ip", 70), ("ip", 11)]).2 "ip")
      (-1) 60 = 3 ∧ 2 < 3 := by
  constructor
  · norm_num [mkRateLimiter, runRL, is_allowed, evictOld, pyInt,
      List.dropWhile, allowedTimes, countWindow, List.filterMap, List.filter]
  · decide

/-- C4 (amended): provided the call timestamps are non-decreasing (a
monotone clock), for every key the number of allowed calls whose
timestamps lie in any trailing half-open window `(a, a + windowSeconds]`
never exceeds `max_requests`. -/
theorem C4_sliding_window (maxRequests : Nat) (windowSeconds : Int)
    (calls : List (String × ℚ)) (key : String) (a : ℚ)
    (hmono : List.Pairwise (fun p q : String × ℚ => p.2 ≤ q.2) calls) :
    countWindow
      (allowedTimes (runRL (mkRateLimiter maxRequests windowSeconds) calls).2
        key) a (windowSeconds : ℚ) ≤ maxRequests := by
  have h := runRL_bound windowSeconds maxRequests key calls
    (mkRateLimiter maxRequests windowSeconds) []
    (match calls with | [] => 0 | c :: _ => c.2)
    rfl rfl ⟨[], by simp [mkRateLimiter], by simp⟩
    (by intro a'; simp [countWindow]) ?_ hmono a
  · simpa using h
  · intro c hc
    cases calls with
    | nil => cases hc
    | cons c0 cs =>
      rcases List.mem_cons.mp hc with hc0 | hcs
      · rw [hc0]
      · exact (List.pairwise_cons.mp hmono).1 c hcs

/-- Witness for C4 at a concrete monotone call sequence. -/
theorem C4_witness :
    countWindow
      (allowedTimes (runRL (mkRateLimiter 2 60)
        [("ip", (0 : ℚ)), ("ip", 10), ("ip", 30)]).2 "ip") 0 60 ≤ 2 :=
  C4_sliding_window 2 60 [("ip", (0 : ℚ)), ("ip", 10), ("ip", 30)] "ip" 0
    (by norm_num)

/-! ### C9 -/

theorem add_message_user (db : DBState) (cid : String) (turn : Nat)
    (msg : String) :
    add_message db cid turn "user" msg =
      (true, ⟨db.conversations,
        db.messages ++ [⟨cid, turn, "user", msg⟩]⟩) := rfl

theorem add_message_bot (db : DBState) (cid : String) (turn : Nat)
    (msg : String) :
    add_message db cid turn "bot" msg =
      (true, ⟨db.conversations.map fun c =>
          if c.id = cid then { c with max_turns := max c.max_turns turn }
          else c,
        db.messages ++ [⟨cid, turn, "bot", msg⟩]⟩) := rfl

theorem find?_update_map (l : List DBConversation) (cid cid' : String)
    (turn : Nat) :
    (l.map fun c =>
        if c.id = cid then { c with max_turns := max c.max_turns turn }
        else c).find? (fun c => c.id = cid') =
      (l.find? fun c => c.id = cid').map fun c =>
        if c.id = cid then { c with max_turns := max c.max_turns turn }
        else c := by
  induction l with
  | nil => rfl
  | cons a l ih =>
    have hid : (if a.id = cid then
        { a with max_turns := max a.max_turns turn } else a).id = a.id := by
      split <;> rfl
    by_cases ha : a.id = cid'
    · rw [List.map_cons,
        List.find?_cons_of_pos _ (by simp only [hid]; simp [ha]),
        List.find?_cons_of_pos _ (by simp [ha])]
      rfl
    · rw [List.map_cons,
        List.find?_cons_of_neg _ (by simp only [hid]; simp [ha]),
        List.find?_cons_of_neg _ (by simp [ha])]
      exact ih

theorem any_append_singleton {α : Type} (l : List α) (m : α) (p : α → Bool) :
    (l ++ [m]).any p = (l.any p || p m) := by
  simp [List.any_append]

theorem userMsgAt_iff (db : DBState) (cid : String) (t : Nat) :
    userMsgAt db cid t = true ↔
      ∃ m ∈ db.messages,
        m.conversation_id = cid ∧ m.turn = t ∧ m.role = "user" := by
  unfold userMsgAt
  simp [List.any_eq_true]

theorem botMsgAt_iff (db : DBState) (cid : String) (t : Nat) :
    botMsgAt db cid t = true ↔
      ∃ m ∈ db.messages,
        m.conversation_id = cid ∧ m.turn = t ∧ m.role = "bot" := by
  unfold botMsgAt
  simp [List.any_eq_true]

theorem userMsgAt_no_msgs (db : DBState) (cid : String) (t : Nat)
    (h : ∀ m ∈ db.messages, m.conversation_id ≠ cid) :
    userMsgAt db cid t = false := by
  rw [Bool.eq_false_iff]
  intro hu
  obtain ⟨m, hm, hmc, _, _⟩ := (userMsgAt_iff db cid t).mp hu
  exact h m hm hmc

theorem get_conversation_create (db : DBState)
    (cid topic pos orig cid' : String) :
    get_conversation (create_conversation db cid topic pos orig).2 cid' =
      (get_conversation db cid').or
        (if cid = cid' then some ⟨cid, topic, pos, orig, 0⟩ else none) := by
  unfold get_conversation create_conversation
  rw [List.find?_append]
  congr 1
  by_cases hcc : cid = cid'
  · rw [List.find?_cons_of_pos _ (by simp [hcc]), if_pos hcc]
  · rw [List.find?_cons_of_neg _ (by simp [hcc]), if_neg hcc]
    rfl

/-- The service-discipline writes preserve the turn-count invariant. -/
theorem serviceReach_inv (db : DBState) (h : ServiceReach db) : DBInv db := by
  induction h with
  | init =>
    refine ⟨?_, ?_⟩
    · intro cid c hc
      cases hc
    · intro cid _ m hm
      cases hm
  | create db cid topic pos orig hr hfresh ih =>
    obtain ⟨ih1, ih2⟩ := ih
    refine ⟨?_, ?_⟩
    · intro cid' c hc'
      rw [get_conversation_create] at hc'
      cases hbase : get_conversation db cid' with
      | some c0 =>
        rw [hbase] at hc'
        have hco : c0 = c := Option.some.inj hc'
        exact hco ▸ ih1 cid' c0 hbase
      | none =>
        rw [hbase] at hc'
        by_cases hcc : cid = cid'
        · rw [if_pos hcc] at hc'
          have hco : (⟨cid, topic, pos, orig, 0⟩ : DBConversation) = c :=
            Option.some.inj hc'
          have hnom : ∀ m ∈ db.messages, m.conversation_id ≠ cid' :=
            ih2 cid' hbase
          refine ⟨?_, ?_, ?_⟩
          · intro t
            unfold completeTurn
            rw [userMsgAt_no_msgs
              (create_conversation db cid topic pos orig).2 cid' t hnom]
            rw [← hco]
            constructor
            · intro hfalse
              simp at hfalse
            · intro ht'
              simp only at ht'
              omega
          · intro m hm hmc _
            exact absurd hmc (hnom m hm)
          · intro m hm hmc
            exact absurd hmc (hnom m hm)
        · rw [if_neg hcc] at hc'
          exact Option.noConfusion hc'
    · intro cid' hnone m hm hmc
      rw [get_conversation_create] at hnone
      cases hbase : get_conversation db cid' with
      | some c0 =>
        rw [hbase] at hnone
        exact Option.noConfusion hnone
      | none => exact ih2 cid' hbase m hm hmc
  | userWrite db cid msg c hr hc ih =>
    obtain ⟨ih1, ih2⟩ := ih
    have hn : get_next_turn db cid = c.max_turns + 1 := by
      unfold get_next_turn
      rw [hc]
    rw [add_message_user]
    refine ⟨?_, ?_⟩
    · intro cid' c' hc'
      have hc'' : get_conversation db cid' = some c' := hc'
      obtain ⟨ia, ib, ic⟩ := ih1 cid' c' hc''
      refine ⟨?_, ?_, ?_⟩
      · intro t
        unfold completeTurn userMsgAt botMsgAt
        simp only []
        rw [any_append_singleton, any_append_singleton]
        have hbotnew : (decide (cid = cid' ∧ get_next_turn db cid = t ∧
            "user" = "bot")) = false := by simp
        rw [hbotnew, Bool.or_false]
        by_cases hcc : cid = cid'
        · subst hcc
          have hcsame : c' = c := by
            rw [hc] at hc''
            cases hc''
            rfl
          subst hcsame
          by_cases ht : get_next_turn db cid = t
          · subst ht
            have hbot : botMsgAt db cid (get_next_turn db cid) = false := by
              rw [Bool.eq_false_iff]
              intro hb
              obtain ⟨m, hm, hmc, hmt, hmr⟩ := (botMsgAt_iff _ _ _).mp hb
              have := ib m hm hmc hmr
              omega
            unfold botMsgAt at hbot
            rw [hbot, Bool.and_false]
            constructor
            · intro hfalse
              cases hfalse
            · intro ht'
              omega
          · have hunew : (decide (cid = cid ∧ get_next_turn db cid = t ∧
                "user" = "user")) = false := by simp [ht]
            rw [hunew, Bool.or_false]
            exact ia t
        · have hunew : (decide (cid = cid' ∧ get_next_turn db cid = t ∧
              "user" = "user")) = false := by simp [hcc]
          rw [hunew, Bool.or_false]
          exact ia t
      · intro m hm hmc hmr
        rcases List.mem_append.mp hm with hold | hnew
        · exact ib m hold hmc hmr
        · rw [List.mem_singleton] at hnew
          subst hnew
          simp at hmr
      · intro m hm hmc
        rcases List.mem_append.mp hm with hold | hnew
        · exact ic m hold hmc
        · rw [List.mem_singleton] at hnew
          subst hnew
          simp only at hmc
          subst hmc
          have hcsame : c' = c := by
            rw [hc] at hc''
            cases hc''
            rfl
          subst hcsame
          simp only
          omega
    · intro cid' hnone m hm hmc
      have hnone' : get_conversation db cid' = none := hnone
      rcases List.mem_append.mp hm with hold | hnew
      · exact ih2 cid' hnone' m hold hmc
      · rw [List.mem_singleton] at hnew
        subst hnew
        simp only at hmc
        subst hmc
        rw [hnone'] at hc
        cases hc
  | botWrite db cid msg c hr hc hu ih =>
    obtain ⟨ih1, ih2⟩ := ih
    have hn : get_next_turn db cid = c.max_turns + 1 := by
      unfold get_next_turn
      rw [hc]
    rw [add_message_bot]
    refine ⟨?_, ?_⟩
    · intro cid' c' hc'
      have hc'' : (get_conversation db cid').map (fun c0 =>
          if c0.id = cid then
            { c0 with max_turns := max c0.max_turns (get_next_turn db cid) }
          else c0) = some c' := by
        have htmp := hc'
        unfold get_conversation at htmp
        dsimp only at htmp
        rw [find?_update_map] at htmp
        unfold get_conversation
        exact htmp
      cases hbase : get_conversation db cid' with
      | none =>
        rw [hbase] at hc''
        exact Option.noConfusion hc''
      | some c0 =>
        rw [hbase] at hc''
        have hgc : (if c0.id = cid then
            { c0 with max_turns := max c0.max_turns (get_next_turn db cid) }
            else c0) = c' := Option.some.inj hc''
        obtain ⟨ia, ib, ic⟩ := ih1 cid' c0 hbase
        have hid0 : c0.id = cid' := by
          have := List.find?_some hbase
          simpa using this
        by_cases hcc : cid = cid'
        · subst hcc
          have hc0c : c0 = c := by
            rw [hc] at hbase
            cases hbase
            rfl
          subst hc0c
          rw [if_pos hid0] at hgc
          subst hgc
          have hmax : max c0.max_turns (get_next_turn db cid) =
              c0.max_turns + 1 := by omega
          refine ⟨?_, ?_, ?_⟩
          · intro t
            unfold completeTurn userMsgAt botMsgAt
            simp only []
            rw [any_append_singleton, any_append_singleton]
            by_cases ht : get_next_turn db cid = t
            · subst ht
              have huser := hu
              unfold userMsgAt at huser
              simp [huser, hn, hmax]
              simpa [List.any_eq_true, hn] using huser
            · have hia := ia t
              unfold completeTurn userMsgAt botMsgAt at hia
              have h1 : (decide (cid = cid ∧ get_next_turn db cid = t ∧
                  ("bot" : String) = "user")) = false := by simp [ht]
              have h2 : (decide (cid = cid ∧ get_next_turn db cid = t ∧
                  ("bot" : String) = "bot")) = false := by simp [ht]
              rw [h1, h2, Bool.or_false, Bool.or_false, hmax]
              constructor
              · intro hcomp
                have := hia.mp hcomp
                omega
              · intro ht'
                exact hia.mpr (by omega)
          · intro m hm hmc hmr
            dsimp only
            rw [hmax]
            rcases List.mem_append.mp hm with hold | hnew
            · have := ib m hold hmc hmr
              omega
            · rw [List.mem_singleton] at hnew
              subst hnew
              simp only
              omega
          · intro m hm hmc
            dsimp only
            rw [hmax]
            rcases List.mem_append.mp hm with hold | hnew
            · have := ic m hold hmc
              omega
            · rw [List.mem_singleton] at hnew
              subst hnew
              simp only
              omega
        · have hne : c0.id ≠ cid := by
            rw [hid0]
            exact fun hcon => hcc hcon.symm
          rw [if_neg hne] at hgc
          subst hgc
          refine ⟨?_, ?_, ?_⟩
          · intro t
            unfold completeTurn userMsgAt botMsgAt
            simp only []
            rw [any_append_singleton, any_append_singleton]
            have h1 : (decide (cid = cid' ∧ get_next_turn db cid = t ∧
                "bot" = "user")) = false := by simp [hcc]
            have h2 : (decide (cid = cid' ∧ get_next_turn db cid = t ∧
                "bot" = "bot")) = false := by simp [hcc]
            rw [h1, h2, Bool.or_false, Bool.or_false]
            exact ia t
          · intro m hm hmc hmr
            rcases List.mem_append.mp hm with hold | hnew
            · exact ib m hold hmc hmr
            · rw [List.mem_singleton] at hnew
              subst hnew
              simp only at hmc
              exact absurd hmc hcc
          · intro m hm hmc
            rcases List.mem_append.mp hm with hold | hnew
            · exact ic m hold hmc
            · rw [List.mem_singleton] at hnew
              subst hnew
              simp only at hmc
              exact absurd hmc hcc
    · intro cid' hnone m hm hmc
      have hnone' : get_conversation db cid' = none := by
        have hmap : (get_conversation db cid').map (fun c0 =>
            if c0.id = cid then
              { c0 with max_turns := max c0.max_turns (get_next_turn db cid) }
            else c0) = none := by
          have htmp := hnone
          unfold get_conversation at htmp
          dsimp only at htmp
          rw [find?_update_map] at htmp
          unfold get_conversation
          exact htmp
        cases hb : get_conversation db cid' with
        | none => rfl
        | some c0 =>
          rw [hb] at hmap
          exact Option.noConfusion hmap
      rcases List.mem_append.mp hm with hold | hnew
      · exact ih2 cid' hnone' m hold hmc
      · rw [List.mem_singleton] at hnew
        subst hnew
        simp only at hmc
        subst hmc
        rw [hnone'] at hc
        cases hc

theorem le_foldr_max (l : List Nat) (x : Nat) (h : x ∈ l) :
    x ≤ l.foldr max 0 := by
  induction l with
  | nil => cases h
  | cons a t ih =>
    rcases List.mem_cons.mp h with rfl | hmem
    · exact le_max_left _ _
    · exact le_trans (ih hmem) (le_max_right _ _)

theorem foldr_max_le (l : List Nat) (b : Nat) (h : ∀ x ∈ l, x ≤ b) :
    l.foldr max 0 ≤ b := by
  induction l with
  | nil => exact Nat.zero_le _
  | cons a t ih =>
    exact max_le (h a (List.mem_cons_self _ _))
      (ih fun x hx => h x (List.mem_cons_of_mem _ hx))

theorem max_turns_eq_highest (db : DBState) (cid : String)
    (c : DBConversation) (hc : get_conversation db cid = some c)
    (hinv : DBInv db) : c.max_turns = highestCompleteTurn db cid := by
  obtain ⟨ih1, _⟩ := hinv
  obtain ⟨ia, _, _⟩ := ih1 cid c hc
  unfold highestCompleteTurn
  apply le_antisymm
  · by_cases h0 : c.max_turns = 0
    · rw [h0]
      exact Nat.zero_le _
    · apply le_foldr_max
      rw [List.mem_filter]
      have hcomp : completeTurn db cid c.max_turns = true :=
        (ia c.max_turns).mpr ⟨by omega, le_refl _⟩
      refine ⟨?_, hcomp⟩
      rw [List.mem_range]
      have huser : userMsgAt db cid c.max_turns = true := by
        unfold completeTurn at hcomp
        exact (Bool.and_eq_true _ _ |>.mp hcomp).1
      obtain ⟨m, hm, hmc, hmt, _⟩ := (userMsgAt_iff _ _ _).mp huser
      have hmem : m.turn ∈ (db.messages.filter fun mm =>
          mm.conversation_id = cid).map fun mm => mm.turn :=
        List.mem_map_of_mem _ (List.mem_filter.mpr ⟨hm, by simp [hmc]⟩)
      have hle := le_foldr_max _ _ hmem
      unfold turnBound
      omega
  · apply foldr_max_le
    intro t ht
    rw [List.mem_filter] at ht
    exact ((ia t).mp ht.2).2

/-- C9: `add_message` updates a conversation's turn count only in the same
committed transaction as a bot-message insert — a user-message write
leaves every conversation row untouched — and, for every database state
reachable through the service's write discipline, the stored `max_turns`
of each conversation equals the highest turn number for which both a user
and a bot message exist. -/
theorem C9_turncount_complete_turns (db db' : DBState) (cid cid' : String)
    (t : Nat) (msg : String) (c : DBConversation)
    (hreach : ServiceReach db)
    (hc : get_conversation db cid = some c) :
    ((add_message db' cid' t "user" msg).2).conversations =
      db'.conversations ∧
    c.max_turns = highestCompleteTurn db cid := by
  constructor
  · rw [add_message_user]
  · exact max_turns_eq_highest db cid c hc (serviceReach_inv db hreach)

/-- Witness for C9 at a freshly created conversation. -/
theorem C9_witness :
    ((add_message emptyDB "x" 1 "user" "m").2).conversations =
      emptyDB.conversations ∧
    (⟨"c1", "T", "P", "O", 0⟩ : DBConversation).max_turns =
      highestCompleteTurn
        (create_conversation emptyDB "c1" "T" "P" "O").2 "c1" :=
  C9_turncount_complete_turns
    (create_conversation emptyDB "c1" "T" "P" "O").2 emptyDB
    "c1" "x" 1 "m" ⟨"c1", "T", "P", "O", 0⟩
    (ServiceReach.create emptyDB "c1" "T" "P" "O" ServiceReach.init rfl)
    rfl

end DebateBot
